import Mathlib

/-!
Shallow embedding of the matching-engine core of the repository
(src/engine/order.py, src/engine/order_book.py, src/engine/matcher.py).

Modelling conventions:
* Python `Decimal` quantities and prices become `ℚ` (exact arithmetic).
* `order_id` / `symbol` (uuid / opaque strings) become `Nat`; `client_order_id`,
  `trade_id` and trade timestamps are dropped (they never influence behaviour).
* `datetime.utcnow()` is an external input: every mutating operation takes an
  explicit `now : Nat` and writes it where the source writes the wall clock.
  Within one engine call the source samples the clock several times; the model
  passes one `now` for the whole call, which no claim observes.
* Python objects are mutated in place; the model threads the new value
  explicitly.  The book's `orders` index stores the order as of insertion;
  the matching loops of the source never read or write that index (filled
  makers are popped from their level but never de-indexed), so the index keys
  in the model coincide with the source at all times.
* Python `dict`s keyed by price become association lists `List (ℚ × PriceLevel)`;
  the source only observes them through membership, lookup, `min`/`max` of the
  key set and `sorted(keys)`, all reproduced below.
* The per-level min-heap keyed by `(created_at, order_id)` is modelled by the
  list of its entries in extraction order (a sorted list): `heappush` becomes
  ordered insertion, `heappop` takes the head, and removal by id removes the
  unique matching entry, exactly the observable behaviour of the source heap.
* Python `raise` becomes `Except String`; `while` loops become fuel-indexed
  structural recursion, where the fuel computed at each call site is large
  enough to replay every iteration the source performs whenever every resting
  order has positive remaining quantity (the source diverges otherwise).
-/

namespace Eng

/-- `OrderType` from src/engine/order.py. -/
inductive OrderType where
  | MARKET
  | LIMIT
  | IOC
  | FOK
deriving DecidableEq, Repr

/-- `OrderSide` from src/engine/order.py. -/
inductive OrderSide where
  | BUY
  | SELL
deriving DecidableEq, Repr

/-- `OrderStatus` from src/engine/order.py. -/
inductive OrderStatus where
  | PENDING
  | OPEN
  | PARTIALLY_FILLED
  | FILLED
  | CANCELLED
  | REJECTED
deriving DecidableEq, Repr

/-- `Order` from src/engine/order.py (uuid and client id dropped, see header). -/
structure Order where
  order_id : Nat
  symbol : Nat
  side : OrderSide
  order_type : OrderType
  quantity : ℚ
  price : Option ℚ
  status : OrderStatus
  created_at : Nat
  updated_at : Nat
  filled_quantity : ℚ
  remaining_quantity : ℚ
deriving DecidableEq, Repr

namespace Order

/-- Success path of `Order.fill` (src/engine/order.py lines 68-75): the state
written once the overfill check has passed.  The `fill_price` argument of the
source is ignored by the source itself. -/
def fillOk (o : Order) (fill_quantity : ℚ) (now : Nat) : Order :=
  { o with
    filled_quantity := o.filled_quantity + fill_quantity
    remaining_quantity := o.remaining_quantity - fill_quantity
    updated_at := now
    status :=
      if o.remaining_quantity - fill_quantity = 0 then OrderStatus.FILLED
      else OrderStatus.PARTIALLY_FILLED }

/-- `Order.fill` from src/engine/order.py lines 63-75.  The source raises
`ValueError` (the OVERFILL error) before any attribute is written, so the
error branch carries no new state. -/
def fill (o : Order) (fill_quantity : ℚ) (fill_price : ℚ) (now : Nat) :
    Except String Order :=
  if o.remaining_quantity < fill_quantity then
    Except.error "Fill quantity exceeds remaining quantity"
  else
    Except.ok (o.fillOk fill_quantity now)

/-- `Order.cancel` from src/engine/order.py lines 77-84: returns the bool the
source returns together with the (possibly) updated order. -/
def cancel (o : Order) (now : Nat) : Bool × Order :=
  if o.status = OrderStatus.FILLED ∨ o.status = OrderStatus.CANCELLED ∨
      o.status = OrderStatus.REJECTED then
    (false, o)
  else
    (true, { o with status := OrderStatus.CANCELLED, updated_at := now })

end Order

/-- Heap key comparison used by `heapq` on `(timestamp, order_id, order)`
tuples: lexicographic on `(created_at, order_id)`. -/
def heapLE (a b : Order) : Bool :=
  a.created_at < b.created_at ∨
    (a.created_at = b.created_at ∧ a.order_id ≤ b.order_id)

/-- Ordered insertion realising `heapq.heappush` on the extraction-ordered
list model of the heap. -/
def heapInsert (o : Order) : List Order → List Order
  | [] => [o]
  | x :: xs => if heapLE o x then o :: x :: xs else x :: heapInsert o xs

/-- Removal of the (unique) entry with a given id, realising the
`remove_order` scan plus `heapify` of the source. -/
def removeById (oid : Nat) : List Order → Option (Order × List Order)
  | [] => none
  | x :: xs =>
    if x.order_id = oid then some (x, xs)
    else
      match removeById oid xs with
      | none => none
      | some (o, rest) => some (o, x :: rest)

/-- `PriceLevel` from src/engine/order_book.py lines 10-50. -/
structure PriceLevel where
  price : ℚ
  orders : List Order
  total_quantity : ℚ
deriving DecidableEq, Repr

namespace PriceLevel

/-- `PriceLevel.__init__`. -/
def init (price : ℚ) : PriceLevel :=
  { price := price, orders := [], total_quantity := 0 }

/-- `PriceLevel.add_order` (lines 18-22). -/
def add_order (lvl : PriceLevel) (o : Order) : PriceLevel :=
  { lvl with
    orders := heapInsert o lvl.orders
    total_quantity := lvl.total_quantity + o.remaining_quantity }

/-- `PriceLevel.remove_order` (lines 24-32). -/
def remove_order (lvl : PriceLevel) (oid : Nat) : Option Order × PriceLevel :=
  match removeById oid lvl.orders with
  | none => (none, lvl)
  | some (o, rest) =>
    (some o,
      { lvl with
        orders := rest
        total_quantity := lvl.total_quantity - o.remaining_quantity })

/-- `PriceLevel.get_oldest_order` (lines 34-38). -/
def get_oldest_order (lvl : PriceLevel) : Option Order :=
  lvl.orders.head?

/-- `PriceLevel.pop_oldest_order` (lines 40-46): note the aggregate is reduced
by the popped order's remaining quantity *at pop time*. -/
def pop_oldest_order (lvl : PriceLevel) : Option Order × PriceLevel :=
  match lvl.orders with
  | [] => (none, lvl)
  | o :: rest =>
    (some o,
      { lvl with
        orders := rest
        total_quantity := lvl.total_quantity - o.remaining_quantity })

/-- `PriceLevel.is_empty` (lines 48-50). -/
def is_empty (lvl : PriceLevel) : Bool :=
  lvl.orders.isEmpty

/-- Sum of `remaining_quantity` over the level's orders (the value the spec
says `total_quantity` must equal). -/
def sumRemaining (lvl : PriceLevel) : ℚ :=
  (lvl.orders.map Order.remaining_quantity).sum

end PriceLevel

/-- Price-keyed map (`self.bids` / `self.asks` dictionaries). -/
abbrev PriceMap := List (ℚ × PriceLevel)

/-- Key set of a price map (`price_map.keys()`). -/
def keysOf (pm : PriceMap) : List ℚ :=
  pm.map Prod.fst

/-- Dictionary lookup `price_map[p]`. -/
def lookupPL (pm : PriceMap) (p : ℚ) : Option PriceLevel :=
  match pm with
  | [] => none
  | (k, v) :: rest => if k = p then some v else lookupPL rest p

/-- Dictionary write `price_map[p] = lvl` (replace if present, else append;
the source only ever observes the map through keys and lookups). -/
def setPL (pm : PriceMap) (p : ℚ) (lvl : PriceLevel) : PriceMap :=
  match pm with
  | [] => [(p, lvl)]
  | (k, v) :: rest => if k = p then (k, lvl) :: rest else (k, v) :: setPL rest p lvl

/-- Dictionary deletion `del price_map[p]`. -/
def erasePL (pm : PriceMap) (p : ℚ) : PriceMap :=
  match pm with
  | [] => []
  | (k, v) :: rest => if k = p then rest else (k, v) :: erasePL rest p

/-- `min(price_map.keys())`. -/
def minKey : List ℚ → Option ℚ
  | [] => none
  | k :: ks =>
    match minKey ks with
    | none => some k
    | some m => some (min k m)

/-- `max(price_map.keys())`. -/
def maxKey : List ℚ → Option ℚ
  | [] => none
  | k :: ks =>
    match maxKey ks with
    | none => some k
    | some m => some (max k m)

/-- Ascending insertion used to realise Python's `sorted`. -/
def insertAsc (p : ℚ) : List ℚ → List ℚ
  | [] => [p]
  | x :: xs => if p ≤ x then p :: x :: xs else x :: insertAsc p xs

/-- `sorted(price_map.keys())` (ascending). -/
def sortAsc : List ℚ → List ℚ
  | [] => []
  | x :: xs => insertAsc x (sortAsc xs)

/-- Order index (`self.orders` dictionary of the book). -/
abbrev OrderIndex := List (Nat × Order)

/-- Lookup in the order index. -/
def lookupOrd (idx : OrderIndex) (oid : Nat) : Option Order :=
  match idx with
  | [] => none
  | (k, v) :: rest => if k = oid then some v else lookupOrd rest oid

/-- Write to the order index. -/
def setOrd (idx : OrderIndex) (oid : Nat) (o : Order) : OrderIndex :=
  match idx with
  | [] => [(oid, o)]
  | (k, v) :: rest => if k = oid then (k, o) :: rest else (k, v) :: setOrd rest oid o

/-- Deletion from the order index. -/
def eraseOrd (idx : OrderIndex) (oid : Nat) : OrderIndex :=
  match idx with
  | [] => []
  | (k, v) :: rest => if k = oid then rest else (k, v) :: eraseOrd rest oid

/-- `OrderBook` from src/engine/order_book.py lines 53-61. -/
structure OrderBook where
  symbol : Nat
  bids : PriceMap
  asks : PriceMap
  orders : OrderIndex
  last_updated : Nat
deriving DecidableEq, Repr

namespace OrderBook

/-- `OrderBook.__init__`. -/
def init (symbol : Nat) (now : Nat) : OrderBook :=
  { symbol := symbol, bids := [], asks := [], orders := [], last_updated := now }

/-- `OrderBook.add_order` from src/engine/order_book.py lines 63-77.  The
DUPLICATE `ValueError` is the `Except.error` branch.  A `none` price together
with status OPEN would be stored under a `None` dictionary key in the source
and is unreachable for validated orders (`Order._validate` requires a price
for every non-MARKET order and the engine never marks a MARKET order OPEN);
the model updates only the index in that corner. -/
def add_order (book : OrderBook) (o : Order) (now : Nat) :
    Except String OrderBook :=
  if (lookupOrd book.orders o.order_id).isSome then
    Except.error "Order already exists"
  else if o.status = OrderStatus.OPEN then
    match o.price with
    | some p =>
      let pm := if o.side = OrderSide.BUY then book.bids else book.asks
      let pm := match lookupPL pm p with
        | none => setPL pm p (PriceLevel.init p)
        | some _ => pm
      let pm := match lookupPL pm p with
        | none => pm
        | some lvl => setPL pm p (lvl.add_order o)
      let book :=
        if o.side = OrderSide.BUY then { book with bids := pm }
        else { book with asks := pm }
      Except.ok { book with
        orders := setOrd book.orders o.order_id o
        last_updated := now }
    | none =>
      Except.ok { book with
        orders := setOrd book.orders o.order_id o
        last_updated := now }
  else
    Except.ok book

/-- `OrderBook.remove_order` from src/engine/order_book.py lines 79-97. -/
def remove_order (book : OrderBook) (oid : Nat) (now : Nat) :
    Option Order × OrderBook :=
  match lookupOrd book.orders oid with
  | none => (none, book)
  | some o =>
    let pm := if o.side = OrderSide.BUY then book.bids else book.asks
    let pm := match o.price with
      | none => pm
      | some p =>
        match lookupPL pm p with
        | none => pm
        | some lvl =>
          let lvl := (lvl.remove_order oid).2
          if lvl.is_empty then erasePL pm p else setPL pm p lvl
    let book :=
      if o.side = OrderSide.BUY then { book with bids := pm }
      else { book with asks := pm }
    (some o,
      { book with orders := eraseOrd book.orders oid, last_updated := now })

/-- `OrderBook.get_order` (lines 99-101). -/
def get_order (book : OrderBook) (oid : Nat) : Option Order :=
  lookupOrd book.orders oid

/-- `OrderBook.get_best_bid` (lines 103-108). -/
def get_best_bid (book : OrderBook) : Option (ℚ × ℚ) :=
  match maxKey (keysOf book.bids) with
  | none => none
  | some p =>
    match lookupPL book.bids p with
    | none => none
    | some lvl => some (p, lvl.total_quantity)

/-- `OrderBook.get_best_ask` (lines 110-115). -/
def get_best_ask (book : OrderBook) : Option (ℚ × ℚ) :=
  match minKey (keysOf book.asks) with
  | none => none
  | some p =>
    match lookupPL book.asks p with
    | none => none
    | some lvl => some (p, lvl.total_quantity)

end OrderBook

/-- `Trade` from src/engine/matcher.py lines 10-29 (uuid and timestamp
dropped, see header).  `price` is copied from the resting order's `price`
attribute, hence `Option ℚ`. -/
structure Trade where
  symbol : Nat
  price : Option ℚ
  quantity : ℚ
  maker_order_id : Nat
  taker_order_id : Nat
  aggressor_side : OrderSide
deriving DecidableEq, Repr

/-- The `price_valid` lambda of src/engine/matcher.py (lines 149, 205, 264,
317) for an order with limit price `lim`:
`p <= order.price` for BUY, `p >= order.price` for SELL. -/
def priceValid (side : OrderSide) (lim : ℚ) (p : ℚ) : Bool :=
  if side = OrderSide.BUY then p ≤ lim else lim ≤ p

/-- The `price_getter` of the matcher: `min` over the opposite key set for a
BUY taker, `max` for a SELL taker. -/
def bestKey (side : OrderSide) (pm : PriceMap) : Option ℚ :=
  if side = OrderSide.BUY then minKey (keysOf pm) else maxKey (keysOf pm)

/-- Inner `while` loop of the four matching routines (src/engine/matcher.py
lines 105-128, 160-183, 216-239, 275-298), matching the taker against one
price level looked up at key `bp`.  `accept` is the `price_valid` predicate
(constantly true for MARKET).  One fuel unit funds one loop iteration; the
call sites pass `lvl.orders.length + 1`, enough to replay the source
whenever every resting order has positive remaining quantity.  Both fills
use `Order.fillOk`: the fill quantity is `min` of the two remainders, so the
source's overfill check never fires here. -/
def matchLevel (accept : ℚ → Bool) (now : Nat) :
    Nat → Order → ℚ → PriceLevel → Order × PriceLevel × List Trade
  | 0, taker, _, lvl => (taker, lvl, [])
  | fuel + 1, taker, bp, lvl =>
    if 0 < taker.remaining_quantity ∧ ¬ lvl.is_empty ∧ accept bp then
      match lvl.orders with
      | [] => (taker, lvl, [])
      | r :: rest =>
        let q := min taker.remaining_quantity r.remaining_quantity
        let t : Trade :=
          { symbol := taker.symbol
            price := r.price
            quantity := q
            maker_order_id := r.order_id
            taker_order_id := taker.order_id
            aggressor_side := taker.side }
        let taker' := taker.fillOk q now
        let r' := r.fillOk q now
        if r'.status = OrderStatus.FILLED then
          -- `pop_oldest_order`: the aggregate drops by the *post-fill*
          -- remaining quantity of the popped order (which is 0 here).
          let lvl' : PriceLevel :=
            { lvl with
              orders := rest
              total_quantity := lvl.total_quantity - r'.remaining_quantity }
          let res := matchLevel accept now fuel taker' bp lvl'
          (res.1, res.2.1, t :: res.2.2)
        else
          let lvl' : PriceLevel := { lvl with orders := r' :: rest }
          let res := matchLevel accept now fuel taker' bp lvl'
          (res.1, res.2.1, t :: res.2.2)
    else (taker, lvl, [])

/-- Outer `while` loop of the four matching routines (src/engine/matcher.py
lines 100-132, 152-187, 208-243, 267-302): pick the best opposite price,
stop if the acceptance predicate rejects it, otherwise match against that
level and delete it if it emptied.  Call sites pass `pm.length + 1` fuel,
one unit per price level plus the final test. -/
def matchLoop (side : OrderSide) (accept : ℚ → Bool) (now : Nat) :
    Nat → Order → PriceMap → Order × PriceMap × List Trade
  | 0, taker, pm => (taker, pm, [])
  | fuel + 1, taker, pm =>
    if 0 < taker.remaining_quantity ∧ pm ≠ [] then
      match bestKey side pm with
      | none => (taker, pm, [])
      | some bp =>
        if accept bp then
          match lookupPL pm bp with
          | none => (taker, pm, [])
          | some lvl =>
            let res := matchLevel accept now (lvl.orders.length + 1) taker bp lvl
            let pm' :=
              if res.2.1.is_empty then erasePL pm bp else setPL pm bp res.2.1
            let rest := matchLoop side accept now fuel res.1 pm'
            (rest.1, rest.2.1, res.2.2 ++ rest.2.2)
        else (taker, pm, [])
    else (taker, pm, [])

/-- The opposite-side price map the taker matches against
(`order_book.asks if order.side == OrderSide.BUY else order_book.bids`). -/
def oppMap (book : OrderBook) (side : OrderSide) : PriceMap :=
  if side = OrderSide.BUY then book.asks else book.bids

/-- Write back the opposite-side price map after matching. -/
def withOppMap (book : OrderBook) (side : OrderSide) (pm : PriceMap) : OrderBook :=
  if side = OrderSide.BUY then { book with asks := pm } else { book with bids := pm }

/-- `MatchingEngine._match_market_order` (src/engine/matcher.py lines
90-138): the common loop with an always-true acceptance predicate, then the
residual is marked PARTIALLY_FILLED when positive. -/
def matchMarketOrder (now : Nat) (o : Order) (book : OrderBook) :
    Order × OrderBook × List Trade :=
  let pm := oppMap book o.side
  let res := matchLoop o.side (fun _ => true) now (pm.length + 1) o pm
  let o' :=
    if 0 < res.1.remaining_quantity then
      { res.1 with status := OrderStatus.PARTIALLY_FILLED }
    else res.1
  (o', withOppMap book o.side res.2.1, res.2.2)

/-- `MatchingEngine._match_limit_order` (src/engine/matcher.py lines
140-194) for a taker with limit price `lim`: the common loop with the
`price_valid` predicate; a positive residual is marked OPEN and admitted via
`OrderBook.add_order` (whose DUPLICATE error propagates). -/
def matchLimitOrderP (now : Nat) (lim : ℚ) (o : Order) (book : OrderBook) :
    Except String (Order × OrderBook × List Trade) :=
  let pm := oppMap book o.side
  let res := matchLoop o.side (priceValid o.side lim) now (pm.length + 1) o pm
  let book' := withOppMap book o.side res.2.1
  if 0 < res.1.remaining_quantity then
    let o' := { res.1 with status := OrderStatus.OPEN }
    match book'.add_order o' now with
    | Except.error e => Except.error e
    | Except.ok book'' => Except.ok (o', book'', res.2.2)
  else
    Except.ok (res.1, book', res.2.2)

/-- `MatchingEngine._match_ioc_order` (src/engine/matcher.py lines 196-249)
for a taker with limit price `lim`: the common loop, then any positive
residual is CANCELLED; the order is never admitted to the book. -/
def matchIocOrderP (now : Nat) (lim : ℚ) (o : Order) (book : OrderBook) :
    Order × OrderBook × List Trade :=
  let pm := oppMap book o.side
  let res := matchLoop o.side (priceValid o.side lim) now (pm.length + 1) o pm
  let o' :=
    if 0 < res.1.remaining_quantity then
      { res.1 with status := OrderStatus.CANCELLED }
    else res.1
  (o', withOppMap book o.side res.2.1, res.2.2)

/-- `MatchingEngine._can_fully_fill_order` (src/engine/matcher.py lines
309-334): walk `sorted(price_map.keys())` — ascending for BOTH sides — and
for each price first test `price_valid` (breaking out of the walk on
failure, which falls through to `return False`), then compare the running
requirement against the level's `total_quantity`.  Starts from
`order.quantity`, not `remaining_quantity`.  A `none` price is unreachable
(FOK orders are validated to carry a price; the source would raise
`TypeError` at the first comparison when a level exists). -/
def canFullyFillOrder (o : Order) (book : OrderBook) : Bool :=
  match o.price with
  | none => false
  | some lim =>
    let pm := oppMap book o.side
    let rec go (rem : ℚ) : List ℚ → Bool
      | [] => false
      | p :: ps =>
        if ¬ priceValid o.side lim p then false
        else
          let avail := match lookupPL pm p with
            | none => 0
            | some lvl => lvl.total_quantity
          if rem ≤ avail then true else go (rem - avail) ps
    go o.quantity (sortAsc (keysOf pm))

/-- `MatchingEngine._match_fok_order` (src/engine/matcher.py lines 251-307)
for a taker with limit price `lim`: run the feasibility scan; if it passes
run the common loop (with NO post-loop status assignment), otherwise cancel
with no trades and no book mutation. -/
def matchFokOrderP (now : Nat) (lim : ℚ) (o : Order) (book : OrderBook) :
    Order × OrderBook × List Trade :=
  if canFullyFillOrder o book then
    let pm := oppMap book o.side
    let res := matchLoop o.side (priceValid o.side lim) now (pm.length + 1) o pm
    (res.1, withOppMap book o.side res.2.1, res.2.2)
  else
    ({ o with status := OrderStatus.CANCELLED }, book, [])

/-- `MatchingEngine.process_order` (src/engine/matcher.py lines 68-88)
restricted to one book (the engine picks the book by symbol; trade-log and
listener fan-out do not touch the book or the order).  A LIMIT/IOC/FOK order
without a price would raise `TypeError` inside the source's loops and is
unreachable for validated orders; the model reports it as an error
uniformly. -/
def processOrder (now : Nat) (o : Order) (book : OrderBook) :
    Except String (Order × OrderBook × List Trade) :=
  match o.order_type with
  | OrderType.MARKET => Except.ok (matchMarketOrder now o book)
  | OrderType.LIMIT =>
    match o.price with
    | none => Except.error "unpriced non-market order"
    | some lim => matchLimitOrderP now lim o book
  | OrderType.IOC =>
    match o.price with
    | none => Except.error "unpriced non-market order"
    | some lim => Except.ok (matchIocOrderP now lim o book)
  | OrderType.FOK =>
    match o.price with
    | none => Except.error "unpriced non-market order"
    | some lim => Except.ok (matchFokOrderP now lim o book)

/-- Feasibility scan as the spec words it (§4.4 "FOK feasibility scan"), for
comparison with `canFullyFillOrder`: walk the opposite map in BEST-FIRST
order (ascending prices for a BUY against asks, descending for a SELL
against bids), accumulate `total_quantity` over the levels whose price the
acceptance predicate admits, and return true exactly when the accumulated
liquidity reaches the order's quantity. -/
def canFullyFillSpec (o : Order) (book : OrderBook) : Bool :=
  match o.price with
  | none => false
  | some lim =>
    let pm := oppMap book o.side
    let prices :=
      if o.side = OrderSide.BUY then sortAsc (keysOf pm)
      else (sortAsc (keysOf pm)).reverse
    let rec go (avail : ℚ) : List ℚ → Bool
      | [] => false
      | p :: ps =>
        if priceValid o.side lim p then
          let tq := match lookupPL pm p with
            | none => 0
            | some lvl => lvl.total_quantity
          if o.quantity ≤ avail + tq then true else go (avail + tq) ps
        else go avail ps
    go 0 prices

/-- `MatchingEngine` state restricted to what `cancel_order` reads: the
symbol-keyed book map (src/engine/matcher.py line 49). -/
structure MatchingEngine where
  order_books : List (Nat × OrderBook)
deriving DecidableEq, Repr

/-- Lookup in the symbol → book map. -/
def lookupBook (bs : List (Nat × OrderBook)) (sym : Nat) : Option OrderBook :=
  match bs with
  | [] => none
  | (k, v) :: rest => if k = sym then some v else lookupBook rest sym

/-- Write to the symbol → book map. -/
def setBook (bs : List (Nat × OrderBook)) (sym : Nat) (book : OrderBook) :
    List (Nat × OrderBook) :=
  match bs with
  | [] => [(sym, book)]
  | (k, v) :: rest =>
    if k = sym then (k, book) :: rest else (k, v) :: setBook rest sym book

/-- `MatchingEngine.cancel_order` (src/engine/matcher.py lines 336-349):
`none` when the symbol has no book or the id is not indexed in it; otherwise
remove from the book, cancel the order, and surface it. -/
def MatchingEngine.cancel_order (e : MatchingEngine) (oid : Nat) (sym : Nat)
    (now : Nat) : Option Order × MatchingEngine :=
  match lookupBook e.order_books sym with
  | none => (none, e)
  | some book =>
    match book.get_order oid with
    | none => (none, e)
    | some o =>
      let book' := (book.remove_order oid now).2
      let o' := (o.cancel now).2
      (some o', { e with order_books := setBook e.order_books sym book' })

/-! ### Predicates used by the statements -/

/-- Some order with id `i` rests in some level of the price map. -/
def idInPM (i : Nat) (pm : PriceMap) : Prop :=
  ∃ pr ∈ pm, ∃ o ∈ pr.2.orders, o.order_id = i

/-- The id `i` is visible anywhere in the book: in the order index or in a
price level of either side. -/
def idInBook (i : Nat) (b : OrderBook) : Prop :=
  (lookupOrd b.orders i).isSome = true ∨ idInPM i b.bids ∨ idInPM i b.asks

/-- Book-shape invariant the source maintains for price maps: every level is
stored under its own price and every order in it carries that price. -/
def wfPM (pm : PriceMap) : Prop :=
  ∀ pr ∈ pm, pr.2.price = pr.1 ∧ ∀ o ∈ pr.2.orders, o.price = some pr.1

/-- Every order resting in `pm'` descends from an order of `pm` with the
same id and price (matching only consumes and partially fills makers). -/
def pmOrdersLE (pm' pm : PriceMap) : Prop :=
  ∀ pr ∈ pm', ∀ o ∈ pr.2.orders,
    ∃ q ∈ pm, ∃ o₀ ∈ q.2.orders, o.order_id = o₀.order_id ∧ o.price = o₀.price

/-! ### Concrete inputs used by the closed theorems and witnesses.
All books below are built by running the engine itself, so every state they
exhibit is reachable through engine operations. -/

/-- A fresh (PENDING) limit order. -/
def limOrd (i : Nat) (side : OrderSide) (q p : ℚ) (t : Nat) : Order :=
  { order_id := i, symbol := 0, side := side, order_type := OrderType.LIMIT,
    quantity := q, price := some p, status := OrderStatus.PENDING,
    created_at := t, updated_at := t, filled_quantity := 0,
    remaining_quantity := q }

/-- A fresh (PENDING) market order. -/
def mktOrd (i : Nat) (side : OrderSide) (q : ℚ) (t : Nat) : Order :=
  { order_id := i, symbol := 0, side := side, order_type := OrderType.MARKET,
    quantity := q, price := none, status := OrderStatus.PENDING,
    created_at := t, updated_at := t, filled_quantity := 0,
    remaining_quantity := q }

/-- A fresh (PENDING) IOC order. -/
def iocOrd (i : Nat) (side : OrderSide) (q p : ℚ) (t : Nat) : Order :=
  { limOrd i side q p t with order_type := OrderType.IOC }

/-- A fresh (PENDING) FOK order. -/
def fokOrd (i : Nat) (side : OrderSide) (q p : ℚ) (t : Nat) : Order :=
  { limOrd i side q p t with order_type := OrderType.FOK }

/-- Run `processOrder` and surface the triple; the error fallback (never hit
in the concrete runs below) returns the inputs unchanged. -/
def runOrd (now : Nat) (o : Order) (book : OrderBook) :
    Order × OrderBook × List Trade :=
  match processOrder now o book with
  | Except.ok x => x
  | Except.error _ => (o, book, [])

/-- Book after resting one SELL 1 @ 100 (via the engine). -/
def bookA : OrderBook := (runOrd 1 (limOrd 1 OrderSide.SELL 1 100 1) (OrderBook.init 0 0)).2.1

/-- Book after resting a second SELL 1 @ 100: one ask level, two makers,
`total_quantity = 2`. -/
def bookB : OrderBook := (runOrd 2 (limOrd 2 OrderSide.SELL 1 100 2) bookA).2.1

/-- Book after a MARKET BUY 1 consumed the older maker: the ask level at 100
holds one order with remaining 1 while its `total_quantity` is still 2. -/
def bookC : OrderBook := (runOrd 3 (mktOrd 3 OrderSide.BUY 1 3) bookB).2.1

/-- The FOK BUY 2 @ 100 submitted against `bookC`. -/
def fokC2 : Order := fokOrd 4 OrderSide.BUY 2 100 4

/-- Book with one resting BUY 5 @ 90. -/
def bookE : OrderBook := (runOrd 1 (limOrd 11 OrderSide.BUY 5 90 1) (OrderBook.init 0 0)).2.1

/-- Book with resting BUY 5 @ 90 and BUY 5 @ 110. -/
def bookF : OrderBook := (runOrd 2 (limOrd 12 OrderSide.BUY 5 110 2) bookE).2.1

/-- The SELL FOK 1 @ 100 submitted against `bookF`: fully fillable at the
110 bid, yet the source scan walks ascending and stops at 90. -/
def fokC3 : Order := fokOrd 13 OrderSide.SELL 1 100 3

/-- Order used by the fill witnesses: an OPEN resting order with quantity 2,
nothing filled yet. -/
def exFill : Order :=
  { limOrd 41 OrderSide.BUY 2 100 0 with status := OrderStatus.OPEN }

/-- A FILLED order, for the terminal-cancel witness. -/
def exFilled : Order :=
  { limOrd 42 OrderSide.BUY 1 100 0 with
    status := OrderStatus.FILLED, filled_quantity := 1, remaining_quantity := 0 }

/-- A PENDING limit order whose id is absent from `bookA`. -/
def exPend : Order := limOrd 43 OrderSide.BUY 1 50 0

/-- Engine with the single book `bookA` under symbol 0. -/
def engA : MatchingEngine := { order_books := [(0, bookA)] }

/-- Decidability of `idInPM`, used to evaluate witnesses. -/
instance (i : Nat) (pm : PriceMap) : Decidable (idInPM i pm) :=
  inferInstanceAs (Decidable (∃ pr ∈ pm, ∃ o ∈ pr.2.orders, o.order_id = i))

/-- Decidability of `idInBook`, used to evaluate witnesses. -/
instance (i : Nat) (b : OrderBook) : Decidable (idInBook i b) :=
  inferInstanceAs (Decidable ((lookupOrd b.orders i).isSome = true ∨
    idInPM i b.bids ∨ idInPM i b.asks))

/-- Decidability of `wfPM`, used to evaluate witnesses. -/
instance (pm : PriceMap) : Decidable (wfPM pm) :=
  inferInstanceAs (Decidable (∀ pr ∈ pm, pr.2.price = pr.1 ∧
    ∀ o ∈ pr.2.orders, o.price = some pr.1))

/-- Aggressive LIMIT BUY 1 @ 101 used by the C4 witness: against `bookA` it
fills at the 100 ask, below its limit. -/
def limC4 : Order := limOrd 51 OrderSide.BUY 1 101 4

/-- The trade `limC4` produces against `bookA`. -/
def c4t : Trade :=
  { symbol := 0, price := some 100, quantity := 1, maker_order_id := 1,
    taker_order_id := 51, aggressor_side := OrderSide.BUY }

/-- IOC BUY 2 @ 100 used by the C7 witness: against `bookA` it fills 1 and
its residual 1 is cancelled. -/
def iocC7 : Order := iocOrd 31 OrderSide.BUY 2 100 4

end Eng

/- The Batteries `Rat` arithmetic is `@[irreducible]`, which blocks the
`decide` elaboration of the concrete runs below; the kernel itself unfolds
them regardless.  Restore default reducibility locally. -/
attribute [local semireducible] Rat.add Rat.sub Rat.mul

namespace Eng

/-! ### Theorems -/

/-- C1: the claimed level invariant `total_quantity = Σ remaining` fails on
the code.  In the reachable book `bookC` (two resting SELL 1 @ 100 makers,
then a MARKET BUY 1): before the market order the ask level at 100 carries
`total_quantity = 2`; the market order fills 1 against the head maker, yet
the level is left with `total_quantity = 2` while its orders sum to 1 —
`pop_oldest_order` subtracts the maker's remaining quantity *after* `fill`
zeroed it, so the fill of quantity 1 decreased the aggregate by 0, not 1. -/
theorem c1_total_quantity_breaks :
    (lookupPL bookB.asks 100).map PriceLevel.total_quantity = some 2 ∧
    (lookupPL bookC.asks 100).map PriceLevel.total_quantity = some 2 ∧
    (lookupPL bookC.asks 100).map PriceLevel.sumRemaining = some 1 ∧
    (lookupPL bookC.asks 100).map (fun lvl => lvl.orders.length) = some 1 := by
  decide

/-- C2: FOK atomicity fails on the code.  Against the reachable book `bookC`
(whose ask level advertises `total_quantity = 2` but holds only 1), the
feasibility scan for the FOK BUY 2 @ 100 passes, yet the matching loop can
only fill 1: the order ends PARTIALLY_FILLED with remaining 1 and one trade
of quantity 1 — neither branch of the claimed disjunction, and the scan
passed while the loop did not leave `remaining = 0`. -/
theorem c2_fok_atomicity_breaks :
    canFullyFillOrder fokC2 bookC = true ∧
    fokC2.quantity = 2 ∧
    (processOrder 4 fokC2 bookC).toOption.map
        (fun x => (x.1.status, x.1.remaining_quantity,
          (x.2.2.map Trade.quantity).sum, x.2.2.length)) =
      some (OrderStatus.PARTIALLY_FILLED, 1, 1, 1) := by
  decide

/-- C3: the feasibility scan does not walk best-first for SELL orders.  In
`bookF` (bids 5 @ 90 and 5 @ 110) the SELL FOK 1 @ 100 is fully fillable at
the 110 bid and the spec's best-first scan (`canFullyFillSpec`) says so,
but the source scan (`canFullyFillOrder`) walks `sorted(keys)` ascending,
hits the unacceptable 90 bid first, breaks, and reports infeasible; the
engine therefore cancels the order with zero trades. -/
theorem c3_scan_not_best_first :
    canFullyFillOrder fokC3 bookF = false ∧
    canFullyFillSpec fokC3 bookF = true ∧
    (processOrder 3 fokC3 bookF).toOption.map
        (fun x => (x.1.status, x.2.2.length)) =
      some (OrderStatus.CANCELLED, 0) := by
  decide

/-- C5 (counterexample): a MARKET BUY 1 against an empty book exits matching
with remaining 1 and zero trades, and the engine marks it PARTIALLY_FILLED,
not CANCELLED as claimed. -/
theorem c5_market_residual_not_cancelled :
    (processOrder 1 (mktOrd 21 OrderSide.BUY 1 1) (OrderBook.init 0 0)).toOption.map
        (fun x => (x.1.status, x.1.remaining_quantity, x.2.2.length)) =
      some (OrderStatus.PARTIALLY_FILLED, 1, 0) ∧
    OrderStatus.PARTIALLY_FILLED ≠ OrderStatus.CANCELLED := by
  decide

/-- C6: `Order.fill` with `q > remaining` fails with the OVERFILL error (the
source raises before writing any attribute, so the order is untouched);
with `0 < q ≤ remaining` it adds `q` to `filled_quantity`, subtracts `q`
from `remaining_quantity`, preserves `filled + remaining = quantity`,
stamps `updated_at`, and sets status FILLED exactly when the new remaining
is 0, else PARTIALLY_FILLED. -/
theorem c6_fill_spec (o : Order) (q p : ℚ) (now : Nat) :
    (o.remaining_quantity < q →
      o.fill q p now = Except.error "Fill quantity exceeds remaining quantity") ∧
    (0 < q → q ≤ o.remaining_quantity →
      ∃ o', o.fill q p now = Except.ok o' ∧
        o'.filled_quantity = o.filled_quantity + q ∧
        o'.remaining_quantity = o.remaining_quantity - q ∧
        o'.quantity = o.quantity ∧
        (o.filled_quantity + o.remaining_quantity = o.quantity →
          o'.filled_quantity + o'.remaining_quantity = o'.quantity) ∧
        o'.status = (if o.remaining_quantity - q = 0 then OrderStatus.FILLED
          else OrderStatus.PARTIALLY_FILLED) ∧
        (o'.status = OrderStatus.FILLED ↔ o'.remaining_quantity = 0) ∧
        o'.updated_at = now) := by
  constructor
  · intro h
    simp [Order.fill, h]
  · intro _ hle
    refine ⟨o.fillOk q now, ?_, ?_, ?_, rfl, ?_, rfl, ?_, rfl⟩
    · simp [Order.fill, not_lt.mpr hle]
    · rfl
    · rfl
    · intro hsum
      simp only [Order.fillOk]
      linarith
    · simp only [Order.fillOk]
      split
      · next h0 => simp [h0]
      · next h0 => simp [h0]

/-- C6 witness: on the OPEN order `exFill` (quantity 2, remaining 2), a fill
of 3 errors out and a fill of 1 yields filled 1, remaining 1, status
PARTIALLY_FILLED. -/
theorem c6_fill_spec_witness :
    exFill.fill 3 100 5 = Except.error "Fill quantity exceeds remaining quantity" ∧
    (exFill.fill 1 100 5).toOption.map
        (fun x => (x.filled_quantity, x.remaining_quantity, x.status, x.updated_at)) =
      some (1, 1, OrderStatus.PARTIALLY_FILLED, 5) := by
  obtain ⟨o', hrun, hf, hr, _, _, hst, _, hu⟩ :=
    (c6_fill_spec exFill 1 100 5).2 (by decide) (by decide)
  refine ⟨(c6_fill_spec exFill 3 100 5).1 (by decide), ?_⟩
  rw [hrun]
  show some ((fun x : Order => (x.filled_quantity, x.remaining_quantity, x.status, x.updated_at)) o') = _
  rw [show ((fun x : Order => (x.filled_quantity, x.remaining_quantity, x.status, x.updated_at)) o') = (o'.filled_quantity, o'.remaining_quantity, o'.status, o'.updated_at) from rfl]
  rw [hf, hr, hst, hu]
  decide

/-- C10: `Order.fill` with `fill_quantity = 0` on an order with positive
remaining quantity succeeds, leaves `filled_quantity` and
`remaining_quantity` unchanged, but still sets status PARTIALLY_FILLED and
stamps `updated_at` — even when `filled_quantity` is 0. -/
theorem c10_zero_fill (o : Order) (p : ℚ) (now : Nat)
    (h : 0 < o.remaining_quantity) :
    ∃ o', o.fill 0 p now = Except.ok o' ∧
      o'.filled_quantity = o.filled_quantity ∧
      o'.remaining_quantity = o.remaining_quantity ∧
      o'.status = OrderStatus.PARTIALLY_FILLED ∧
      o'.updated_at = now := by
  refine ⟨o.fillOk 0 now, ?_, by simp [Order.fillOk], by simp [Order.fillOk], ?_, rfl⟩
  · simp [Order.fill, not_lt.mpr (le_of_lt h)]
  · simp only [Order.fillOk, sub_zero]
    split
    · next h0 => exact absurd h0 (ne_of_gt h)
    · rfl

/-- C10 witness: a zero fill on `exFill` (remaining 2, filled 0) keeps
filled = 0 and remaining = 2 while turning the status PARTIALLY_FILLED. -/
theorem c10_zero_fill_witness :
    (exFill.fill 0 100 7).toOption.map
        (fun x => (x.filled_quantity, x.remaining_quantity, x.status, x.updated_at)) =
      some (0, 2, OrderStatus.PARTIALLY_FILLED, 7) := by
  obtain ⟨o', hrun, hf, hr, hst, hu⟩ := c10_zero_fill exFill 100 7 (by decide)
  rw [hrun]
  show some ((fun x : Order => (x.filled_quantity, x.remaining_quantity, x.status, x.updated_at)) o') = _
  rw [show ((fun x : Order => (x.filled_quantity, x.remaining_quantity, x.status, x.updated_at)) o') = (o'.filled_quantity, o'.remaining_quantity, o'.status, o'.updated_at) from rfl]
  rw [hf, hr, hst, hu]
  decide

/-- C8: `Order.cancel` returns false and changes nothing on a terminal
status (FILLED, CANCELLED, REJECTED), otherwise returns true after setting
status CANCELLED and stamping `updated_at`; a second cancel never changes
anything (idempotence); and engine-level `cancel_order` returns none and
leaves the engine untouched when the symbol has no book or the id is not in
the book's index. -/
theorem c8_cancel_spec (o : Order) (now now2 : Nat) (e : MatchingEngine)
    (book : OrderBook) (oid sym : Nat) :
    (o.status = OrderStatus.FILLED ∨ o.status = OrderStatus.CANCELLED ∨
        o.status = OrderStatus.REJECTED →
      o.cancel now = (false, o)) ∧
    (¬(o.status = OrderStatus.FILLED ∨ o.status = OrderStatus.CANCELLED ∨
        o.status = OrderStatus.REJECTED) →
      o.cancel now =
        (true, { o with status := OrderStatus.CANCELLED, updated_at := now })) ∧
    ((o.cancel now).2.cancel now2 = (false, (o.cancel now).2)) ∧
    (lookupBook e.order_books sym = none →
      e.cancel_order oid sym now = (none, e)) ∧
    (lookupBook e.order_books sym = some book → book.get_order oid = none →
      e.cancel_order oid sym now = (none, e)) := by
  refine ⟨?_, ?_, ?_, ?_, ?_⟩
  · intro h
    simp [Order.cancel, h]
  · intro h
    simp [Order.cancel, h]
  · by_cases h : o.status = OrderStatus.FILLED ∨ o.status = OrderStatus.CANCELLED ∨
        o.status = OrderStatus.REJECTED
    · simp [Order.cancel, h]
    · simp [Order.cancel, h]
  · intro h
    simp [MatchingEngine.cancel_order, h]
  · intro h1 h2
    simp [MatchingEngine.cancel_order, h1, h2]

/-- C8 witness: cancelling the FILLED order `exFilled` returns false and
the order unchanged; a first cancel of the PENDING `exFill`-shaped order
returns true with status CANCELLED, and the second cancel is a no-op;
`cancel_order` on `engA` returns none both for an unknown symbol and for an
id absent from the book. -/
theorem c8_cancel_spec_witness :
    exFilled.cancel 5 = (false, exFilled) ∧
    (exFill.cancel 5 =
      (true, { exFill with status := OrderStatus.CANCELLED, updated_at := 5 })) ∧
    ((exFill.cancel 5).2.cancel 6 = (false, (exFill.cancel 5).2)) ∧
    engA.cancel_order 999 7 8 = (none, engA) ∧
    engA.cancel_order 999 0 8 = (none, engA) := by
  refine ⟨?_, ?_, ?_, ?_, ?_⟩
  · exact (c8_cancel_spec exFilled 5 6 engA bookA 999 0).1 (by decide)
  · exact (c8_cancel_spec exFill 5 6 engA bookA 999 0).2.1 (by decide)
  · exact (c8_cancel_spec exFill 5 6 engA bookA 999 0).2.2.1
  · exact (c8_cancel_spec exFill 5 6 engA bookA 999 7).2.2.2.1 (by decide)
  · exact (c8_cancel_spec exFill 5 6 engA bookA 999 0).2.2.2.2 (by decide) (by decide)

/-- C9: `OrderBook.add_order` on an order whose id is not indexed and whose
status is not OPEN succeeds without raising and returns the book entirely
unchanged — no level is created, the order is not indexed, `last_updated`
is untouched. -/
theorem c9_add_non_open (book : OrderBook) (o : Order) (now : Nat)
    (h1 : lookupOrd book.orders o.order_id = none)
    (h2 : o.status ≠ OrderStatus.OPEN) :
    book.add_order o now = Except.ok book := by
  simp [OrderBook.add_order, h1, h2]

/-- C9 witness: adding the PENDING order `exPend` (id 43, absent from
`bookA`) leaves `bookA` exactly as it was. -/
theorem c9_add_non_open_witness :
    bookA.add_order exPend 9 = Except.ok bookA :=
  c9_add_non_open bookA exPend 9 (by decide) (by decide)

theorem lookupPL_mem : ∀ {pm : PriceMap} {p : ℚ} {lvl : PriceLevel},
    lookupPL pm p = some lvl → (p, lvl) ∈ pm := by
  intro pm
  induction pm with
  | nil => intro p lvl h; simp [lookupPL] at h
  | cons hd tl ih =>
    intro p lvl h
    obtain ⟨k, v⟩ := hd
    rw [lookupPL] at h
    by_cases hk : k = p
    · subst hk
      rw [if_pos rfl] at h
      injection h with h
      subst h
      exact List.mem_cons_self _ _
    · rw [if_neg hk] at h
      exact List.mem_cons_of_mem _ (ih h)

theorem mem_setPL : ∀ {pm : PriceMap} {p : ℚ} {lvl : PriceLevel} {pr : ℚ × PriceLevel},
    pr ∈ setPL pm p lvl → pr = (p, lvl) ∨ pr ∈ pm := by
  intro pm
  induction pm with
  | nil =>
    intro p lvl pr h
    simp [setPL] at h
    exact Or.inl h
  | cons hd tl ih =>
    intro p lvl pr h
    obtain ⟨k, v⟩ := hd
    rw [setPL] at h
    by_cases hk : k = p
    · subst hk
      rw [if_pos rfl] at h
      rcases List.mem_cons.mp h with h1 | h1
      · exact Or.inl h1
      · exact Or.inr (List.mem_cons_of_mem _ h1)
    · rw [if_neg hk] at h
      rcases List.mem_cons.mp h with h1 | h1
      · exact Or.inr (h1 ▸ List.mem_cons_self _ _)
      · rcases ih h1 with h2 | h2
        · exact Or.inl h2
        · exact Or.inr (List.mem_cons_of_mem _ h2)

theorem mem_erasePL : ∀ {pm : PriceMap} {p : ℚ} {pr : ℚ × PriceLevel},
    pr ∈ erasePL pm p → pr ∈ pm := by
  intro pm
  induction pm with
  | nil => intro p pr h; simp [erasePL] at h
  | cons hd tl ih =>
    intro p pr h
    obtain ⟨k, v⟩ := hd
    rw [erasePL] at h
    by_cases hk : k = p
    · rw [if_pos hk] at h
      exact List.mem_cons_of_mem _ h
    · rw [if_neg hk] at h
      rcases List.mem_cons.mp h with h1 | h1
      · exact h1 ▸ List.mem_cons_self _ _
      · exact List.mem_cons_of_mem _ (ih h1)

theorem matchLevel_taker (accept : ℚ → Bool) (now : Nat) :
    ∀ (fuel : Nat) (taker : Order) (bp : ℚ) (lvl : PriceLevel),
      (matchLevel accept now fuel taker bp lvl).1.order_id = taker.order_id ∧
      (matchLevel accept now fuel taker bp lvl).1.side = taker.side := by
  intro fuel
  induction fuel with
  | zero => intro taker bp lvl; exact ⟨rfl, rfl⟩
  | succ fuel ih =>
    intro taker bp lvl
    rw [matchLevel]
    split
    · split
      · exact ⟨rfl, rfl⟩
      · dsimp only
        split
        · exact ih _ _ _
        · exact ih _ _ _
    · exact ⟨rfl, rfl⟩

theorem matchLevel_level (accept : ℚ → Bool) (now : Nat) :
    ∀ (fuel : Nat) (taker : Order) (bp : ℚ) (lvl : PriceLevel),
      (matchLevel accept now fuel taker bp lvl).2.1.price = lvl.price ∧
      ∀ o' ∈ (matchLevel accept now fuel taker bp lvl).2.1.orders,
        ∃ o ∈ lvl.orders, o'.order_id = o.order_id ∧ o'.price = o.price := by
  intro fuel
  induction fuel with
  | zero =>
    intro taker bp lvl
    exact ⟨rfl, fun o' h => ⟨o', h, rfl, rfl⟩⟩
  | succ fuel ih =>
    intro taker bp lvl
    rw [matchLevel]
    split
    · split
      · exact ⟨rfl, fun o' h => ⟨o', h, rfl, rfl⟩⟩
      · next r rest heq =>
        dsimp only
        split
        · refine ⟨(ih _ _ _).1, ?_⟩
          intro o' h
          obtain ⟨o, ho, h1, h2⟩ := (ih _ _ _).2 o' h
          exact ⟨o, heq ▸ List.mem_cons_of_mem _ ho, h1, h2⟩
        · refine ⟨(ih _ _ _).1, ?_⟩
          intro o' h
          obtain ⟨o, ho, h1, h2⟩ := (ih _ _ _).2 o' h
          rcases List.mem_cons.mp ho with h3 | h3
          · subst h3
            exact ⟨r, heq ▸ List.mem_cons_self _ _, h1, h2⟩
          · exact ⟨o, heq ▸ List.mem_cons_of_mem _ h3, h1, h2⟩
    · exact ⟨rfl, fun o' h => ⟨o', h, rfl, rfl⟩⟩

theorem matchLevel_trades (accept : ℚ → Bool) (now : Nat) :
    ∀ (fuel : Nat) (taker : Order) (bp : ℚ) (lvl : PriceLevel),
      ∀ t ∈ (matchLevel accept now fuel taker bp lvl).2.2,
        t.taker_order_id = taker.order_id ∧ t.aggressor_side = taker.side ∧
        ∃ r ∈ lvl.orders, t.maker_order_id = r.order_id ∧ t.price = r.price := by
  intro fuel
  induction fuel with
  | zero => intro taker bp lvl t h; simp [matchLevel] at h
  | succ fuel ih =>
    intro taker bp lvl t h
    rw [matchLevel] at h
    split at h
    · split at h
      · simp at h
      · next r rest heq =>
        dsimp only at h
        split at h
        · rcases List.mem_cons.mp h with h1 | h1
          · subst h1
            exact ⟨rfl, rfl, r, heq ▸ List.mem_cons_self _ _, rfl, rfl⟩
          · obtain ⟨h2, h3, o, ho, h4, h5⟩ := ih _ _ _ t h1
            refine ⟨h2, h3, ?_⟩
            exact ⟨o, heq ▸ List.mem_cons_of_mem _ ho, h4, h5⟩
        · rcases List.mem_cons.mp h with h1 | h1
          · subst h1
            exact ⟨rfl, rfl, r, heq ▸ List.mem_cons_self _ _, rfl, rfl⟩
          · obtain ⟨h2, h3, o, ho, h4, h5⟩ := ih _ _ _ t h1
            refine ⟨h2, h3, ?_⟩
            rcases List.mem_cons.mp ho with h6 | h6
            · subst h6
              exact ⟨r, heq ▸ List.mem_cons_self _ _, h4, h5⟩
            · exact ⟨o, heq ▸ List.mem_cons_of_mem _ h6, h4, h5⟩
    · simp at h

theorem pmOrdersLE_refl (pm : PriceMap) : pmOrdersLE pm pm :=
  fun pr hpr o ho => ⟨pr, hpr, o, ho, rfl, rfl⟩

theorem pmOrdersLE_trans {a b c : PriceMap} (h1 : pmOrdersLE a b)
    (h2 : pmOrdersLE b c) : pmOrdersLE a c := by
  intro pr hpr o ho
  obtain ⟨q, hq, o₀, ho₀, hid, hpr'⟩ := h1 pr hpr o ho
  obtain ⟨q', hq', o₁, ho₁, hid', hpr''⟩ := h2 q hq o₀ ho₀
  exact ⟨q', hq', o₁, ho₁, hid.trans hid', hpr'.trans hpr''⟩

theorem pmOrdersLE_erase (pm : PriceMap) (p : ℚ) : pmOrdersLE (erasePL pm p) pm :=
  fun pr hpr o ho => ⟨pr, mem_erasePL hpr, o, ho, rfl, rfl⟩

/-- One outer-loop step: writing back the matched level keeps every resting
order descending (same id, same price) from an order of the original map. -/
theorem pmOrdersLE_set_matched {pm : PriceMap} {bp : ℚ} {lvl lvl' : PriceLevel}
    (hlook : lookupPL pm bp = some lvl)
    (hsub : ∀ o' ∈ lvl'.orders, ∃ o ∈ lvl.orders, o'.order_id = o.order_id ∧ o'.price = o.price) :
    pmOrdersLE (setPL pm bp lvl') pm := by
  intro pr hpr o ho
  rcases mem_setPL hpr with h1 | h1
  · subst h1
    obtain ⟨o₀, ho₀, hid, hp⟩ := hsub o ho
    exact ⟨(bp, lvl), lookupPL_mem hlook, o₀, ho₀, hid, hp⟩
  · exact ⟨pr, h1, o, ho, rfl, rfl⟩

theorem wfPM_erase {pm : PriceMap} (p : ℚ) (h : wfPM pm) : wfPM (erasePL pm p) :=
  fun pr hpr => h pr (mem_erasePL hpr)

theorem wfPM_set_matched {pm : PriceMap} {bp : ℚ} {lvl lvl' : PriceLevel}
    (h : wfPM pm) (hlook : lookupPL pm bp = some lvl)
    (hprice : lvl'.price = lvl.price)
    (hsub : ∀ o' ∈ lvl'.orders, ∃ o ∈ lvl.orders, o'.order_id = o.order_id ∧ o'.price = o.price) :
    wfPM (setPL pm bp lvl') := by
  intro pr hpr
  rcases mem_setPL hpr with h1 | h1
  · subst h1
    obtain ⟨hl, ho⟩ := h (bp, lvl) (lookupPL_mem hlook)
    refine ⟨hprice.trans hl, ?_⟩
    intro o hos
    obtain ⟨o₀, ho₀, _, hp⟩ := hsub o hos
    exact hp.trans (ho o₀ ho₀)
  · exact h pr h1

theorem matchLoop_taker (side : OrderSide) (accept : ℚ → Bool) (now : Nat) :
    ∀ (fuel : Nat) (taker : Order) (pm : PriceMap),
      (matchLoop side accept now fuel taker pm).1.order_id = taker.order_id ∧
      (matchLoop side accept now fuel taker pm).1.side = taker.side := by
  intro fuel
  induction fuel with
  | zero => intro taker pm; exact ⟨rfl, rfl⟩
  | succ fuel ih =>
    intro taker pm
    rw [matchLoop]
    split
    · split
      · exact ⟨rfl, rfl⟩
      · split
        · split
          · exact ⟨rfl, rfl⟩
          · dsimp only
            constructor
            · exact (ih _ _).1.trans (matchLevel_taker accept now _ _ _ _).1
            · exact (ih _ _).2.trans (matchLevel_taker accept now _ _ _ _).2
        · exact ⟨rfl, rfl⟩
    · exact ⟨rfl, rfl⟩

theorem matchLoop_pmsub (side : OrderSide) (accept : ℚ → Bool) (now : Nat) :
    ∀ (fuel : Nat) (taker : Order) (pm : PriceMap),
      pmOrdersLE (matchLoop side accept now fuel taker pm).2.1 pm := by
  intro fuel
  induction fuel with
  | zero => intro taker pm; exact pmOrdersLE_refl pm
  | succ fuel ih =>
    intro taker pm
    rw [matchLoop]
    split
    · split
      · exact pmOrdersLE_refl pm
      · split
        · split
          · exact pmOrdersLE_refl pm
          · next lvl hlook =>
            dsimp only
            refine pmOrdersLE_trans (ih _ _) ?_
            split
            · exact pmOrdersLE_erase pm _
            · exact pmOrdersLE_set_matched hlook
                (matchLevel_level accept now _ _ _ _).2
        · exact pmOrdersLE_refl pm
    · exact pmOrdersLE_refl pm

theorem matchLoop_trades (side : OrderSide) (accept : ℚ → Bool) (now : Nat) :
    ∀ (fuel : Nat) (taker : Order) (pm : PriceMap), wfPM pm →
      ∀ t ∈ (matchLoop side accept now fuel taker pm).2.2,
        t.taker_order_id = taker.order_id ∧ t.aggressor_side = taker.side ∧
        (∃ p, accept p = true ∧ t.price = some p) ∧
        ∃ pr ∈ pm, ∃ r ∈ pr.2.orders,
          t.maker_order_id = r.order_id ∧ t.price = r.price := by
  intro fuel
  induction fuel with
  | zero => intro taker pm _ t h; simp [matchLoop] at h
  | succ fuel ih =>
    intro taker pm hwf t h
    rw [matchLoop] at h
    split at h
    · split at h
      · simp at h
      · next bp hbp =>
        split at h
        · next hacc =>
          split at h
          · simp at h
          · next lvl hlook =>
            dsimp only at h
            rcases List.mem_append.mp h with h1 | h1
            · obtain ⟨h2, h3, r, hr, h4, h5⟩ :=
                matchLevel_trades accept now _ _ _ _ t h1
              have hmem := lookupPL_mem hlook
              have hp : r.price = some bp := (hwf _ hmem).2 r hr
              exact ⟨h2, h3, ⟨bp, hacc, h5.trans hp⟩, _, hmem, r, hr, h4, h5⟩
            · have hwf' : wfPM (if (matchLevel accept now (lvl.orders.length + 1)
                  taker bp lvl).2.1.is_empty = true then erasePL pm bp
                  else setPL pm bp (matchLevel accept now (lvl.orders.length + 1)
                    taker bp lvl).2.1) := by
                split
                · exact wfPM_erase bp hwf
                · exact wfPM_set_matched hwf hlook
                    (matchLevel_level accept now _ _ _ _).1
                    (matchLevel_level accept now _ _ _ _).2
              have hstep : pmOrdersLE (if (matchLevel accept now
                  (lvl.orders.length + 1) taker bp lvl).2.1.is_empty = true
                  then erasePL pm bp
                  else setPL pm bp (matchLevel accept now (lvl.orders.length + 1)
                    taker bp lvl).2.1) pm := by
                split
                · exact pmOrdersLE_erase pm bp
                · exact pmOrdersLE_set_matched hlook
                    (matchLevel_level accept now _ _ _ _).2
              obtain ⟨h2, h3, hap, pr', hpr', r', hr', h4, h5⟩ :=
                ih _ _ hwf' t h1
              obtain ⟨q, hq, o₀, ho₀, hid, hpp⟩ := hstep pr' hpr' r' hr'
              refine ⟨h2.trans (matchLevel_taker accept now _ _ _ _).1,
                h3.trans (matchLevel_taker accept now _ _ _ _).2, hap, ?_⟩
              exact ⟨q, hq, o₀, ho₀, h4.trans hid, h5.trans hpp⟩
        · simp at h
    · simp at h

theorem not_idInPM_mono {i : Nat} {pm' pm : PriceMap} (hle : pmOrdersLE pm' pm)
    (h : ¬ idInPM i pm) : ¬ idInPM i pm' := by
  rintro ⟨pr, hpr, o, ho, hid⟩
  obtain ⟨q, hq, o₀, ho₀, hid', _⟩ := hle pr hpr o ho
  exact h ⟨q, hq, o₀, ho₀, hid'.symm.trans hid⟩

theorem withOppMap_orders (book : OrderBook) (side : OrderSide) (pm : PriceMap) :
    (withOppMap book side pm).orders = book.orders := by
  rw [withOppMap]; split <;> rfl

theorem not_idInBook_withOpp {i : Nat} {book : OrderBook} {side : OrderSide}
    {pm' : PriceMap} (hle : pmOrdersLE pm' (oppMap book side))
    (h : ¬ idInBook i book) : ¬ idInBook i (withOppMap book side pm') := by
  intro hc
  cases side with
  | BUY =>
    rcases hc with h1 | h1 | h1
    · exact h (Or.inl h1)
    · exact h (Or.inr (Or.inl h1))
    · exact not_idInPM_mono hle (fun x => h (Or.inr (Or.inr x))) h1
  | SELL =>
    rcases hc with h1 | h1 | h1
    · exact h (Or.inl h1)
    · exact not_idInPM_mono hle (fun x => h (Or.inr (Or.inl x))) h1
    · exact h (Or.inr (Or.inr h1))

theorem priceValid_buy {lim p : ℚ} (h : priceValid OrderSide.BUY lim p = true) :
    p ≤ lim := by
  simpa [priceValid] using h

theorem priceValid_sell {lim p : ℚ} (h : priceValid OrderSide.SELL lim p = true) :
    lim ≤ p := by
  simpa [priceValid] using h

/-- C5 (amended): a MARKET order that exits matching with positive residual
is marked PARTIALLY_FILLED (even when no fill occurred), and the order is
never admitted to the book: the order index is untouched and a taker id
absent from the book stays absent. -/
theorem c5_market_residual_status (now : Nat) (o o' : Order)
    (book book' : OrderBook) (ts : List Trade)
    (hty : o.order_type = OrderType.MARKET)
    (hrun : processOrder now o book = Except.ok (o', book', ts)) :
    (0 < o'.remaining_quantity → o'.status = OrderStatus.PARTIALLY_FILLED) ∧
    book'.orders = book.orders ∧
    (¬ idInBook o.order_id book → ¬ idInBook o.order_id book') := by
  rw [processOrder] at hrun
  split at hrun
  case h_2 heq => rw [hty] at heq; cases heq
  case h_3 heq => rw [hty] at heq; cases heq
  case h_4 heq => rw [hty] at heq; cases heq
  case h_1 =>
    injection hrun with h
    obtain rfl : o' = (matchMarketOrder now o book).1 := (congrArg (·.1) h).symm
    obtain rfl : book' = (matchMarketOrder now o book).2.1 := (congrArg (·.2.1) h).symm
    refine ⟨?_, ?_, ?_⟩
    · rw [matchMarketOrder]
      dsimp only
      split
      · intro _; rfl
      · next h0 => intro hpos; exact absurd hpos h0
    · rw [matchMarketOrder]
      dsimp only
      exact withOppMap_orders _ _ _
    · intro habs
      rw [matchMarketOrder]
      dsimp only
      have hsub := matchLoop_pmsub o.side (fun _ => true) now
        ((oppMap book o.side).length + 1) o (oppMap book o.side)
      -- the wrapper only replaces the taker's status, which does not affect
      -- book membership; reduce to the generic absence lemma
      exact not_idInBook_withOpp hsub habs

/-- C7: an IOC order with positive residual on exit from the matching loop
ends CANCELLED, and the IOC order is never present in the book after the
call: the order index is untouched and a taker id absent from the book
stays absent from both the index and every price level. -/
theorem c7_ioc_spec (now : Nat) (o o' : Order) (book book' : OrderBook)
    (ts : List Trade)
    (hty : o.order_type = OrderType.IOC)
    (hrun : processOrder now o book = Except.ok (o', book', ts)) :
    (0 < o'.remaining_quantity → o'.status = OrderStatus.CANCELLED) ∧
    book'.orders = book.orders ∧
    (¬ idInBook o.order_id book → ¬ idInBook o.order_id book') := by
  rw [processOrder] at hrun
  split at hrun
  case h_1 heq => rw [hty] at heq; cases heq
  case h_2 heq => rw [hty] at heq; cases heq
  case h_4 heq => rw [hty] at heq; cases heq
  case h_3 =>
    split at hrun
    · simp at hrun
    · next lim hp =>
      injection hrun with h
      obtain rfl : o' = (matchIocOrderP now lim o book).1 := (congrArg (·.1) h).symm
      obtain rfl : book' = (matchIocOrderP now lim o book).2.1 :=
        (congrArg (·.2.1) h).symm
      refine ⟨?_, ?_, ?_⟩
      · rw [matchIocOrderP]
        dsimp only
        split
        · intro _; rfl
        · next h0 => intro hpos; exact absurd hpos h0
      · rw [matchIocOrderP]
        dsimp only
        exact withOppMap_orders _ _ _
      · intro habs
        rw [matchIocOrderP]
        dsimp only
        have hsub := matchLoop_pmsub o.side (priceValid o.side lim) now
          ((oppMap book o.side).length + 1) o (oppMap book o.side)
        exact not_idInBook_withOpp hsub habs

/-- Repackaged form of `matchLoop_trades` used by the per-type cases. -/
theorem matchLoop_trades_pack (side : OrderSide) (accept : ℚ → Bool) (now : Nat)
    (fuel : Nat) (taker : Order) (pm : PriceMap) (hwf : wfPM pm) (t : Trade)
    (ht : t ∈ (matchLoop side accept now fuel taker pm).2.2) :
    t.taker_order_id = taker.order_id ∧ t.aggressor_side = taker.side ∧
    (∃ pr ∈ pm, ∃ r ∈ pr.2.orders,
      t.maker_order_id = r.order_id ∧ t.price = r.price) ∧
    (∃ p, accept p = true ∧ t.price = some p) := by
  obtain ⟨h1, h2, h3, h4⟩ := matchLoop_trades side accept now fuel taker pm hwf t ht
  exact ⟨h1, h2, h4, h3⟩

/-- C4: every trade emitted by `processOrder` carries the resting maker's
price (and identifies the taker as aggressor); for a LIMIT taker every
trade price satisfies the side's limit bound. -/
theorem c4_trade_prices (now : Nat) (o o' : Order) (book book' : OrderBook)
    (ts : List Trade) (hwf : wfPM (oppMap book o.side))
    (hrun : processOrder now o book = Except.ok (o', book', ts)) :
    ∀ t ∈ ts,
      t.taker_order_id = o.order_id ∧ t.aggressor_side = o.side ∧
      (∃ pr ∈ oppMap book o.side, ∃ r ∈ pr.2.orders,
        t.maker_order_id = r.order_id ∧ t.price = r.price) ∧
      (∀ lim, o.price = some lim → o.order_type ≠ OrderType.MARKET →
        (o.side = OrderSide.BUY → ∃ p, t.price = some p ∧ p ≤ lim) ∧
        (o.side = OrderSide.SELL → ∃ p, t.price = some p ∧ lim ≤ p)) := by
  intro t ht
  rw [processOrder] at hrun
  split at hrun
  case h_1 heq =>
    -- MARKET
    injection hrun with h
    obtain rfl : ts = (matchMarketOrder now o book).2.2 := (congrArg (·.2.2) h).symm
    obtain ⟨h1, h2, h3, _⟩ := matchLoop_trades_pack o.side (fun _ => true) now
      ((oppMap book o.side).length + 1) o (oppMap book o.side) hwf t ht
    exact ⟨h1, h2, h3, fun lim _ hne => absurd heq hne⟩
  case h_2 heq =>
    -- LIMIT
    split at hrun
    · simp at hrun
    · next lim₀ hp =>
      rw [matchLimitOrderP] at hrun
      dsimp only at hrun
      have hts : ts = (matchLoop o.side (priceValid o.side lim₀) now
          ((oppMap book o.side).length + 1) o (oppMap book o.side)).2.2 := by
        split at hrun
        · split at hrun
          · simp at hrun
          · injection hrun with h
            exact (congrArg (·.2.2) h).symm
        · injection hrun with h
          exact (congrArg (·.2.2) h).symm
      rw [hts] at ht
      obtain ⟨h1, h2, h3, p, hap, hp'⟩ := matchLoop_trades_pack o.side
        (priceValid o.side lim₀) now ((oppMap book o.side).length + 1) o
        (oppMap book o.side) hwf t ht
      refine ⟨h1, h2, h3, ?_⟩
      intro lim hlim _
      rw [hp] at hlim
      injection hlim with hlim
      subst hlim
      constructor
      · intro hside
        rw [hside] at hap
        exact ⟨p, hp', priceValid_buy hap⟩
      · intro hside
        rw [hside] at hap
        exact ⟨p, hp', priceValid_sell hap⟩
  case h_3 heq =>
    -- IOC
    split at hrun
    · simp at hrun
    · next lim₀ hp =>
      injection hrun with h
      obtain rfl : ts = (matchIocOrderP now lim₀ o book).2.2 := (congrArg (·.2.2) h).symm
      obtain ⟨h1, h2, h3, p, hap, hp'⟩ := matchLoop_trades_pack o.side
        (priceValid o.side lim₀) now ((oppMap book o.side).length + 1) o
        (oppMap book o.side) hwf t ht
      refine ⟨h1, h2, h3, ?_⟩
      intro lim hlim _
      rw [hp] at hlim
      injection hlim with hlim
      subst hlim
      constructor
      · intro hside
        rw [hside] at hap
        exact ⟨p, hp', priceValid_buy hap⟩
      · intro hside
        rw [hside] at hap
        exact ⟨p, hp', priceValid_sell hap⟩
  case h_4 heq =>
    -- FOK
    split at hrun
    · simp at hrun
    · next lim₀ hp =>
      rw [matchFokOrderP] at hrun
      split at hrun
      · injection hrun with h
        obtain rfl : ts = (matchLoop o.side (priceValid o.side lim₀) now
            ((oppMap book o.side).length + 1) o (oppMap book o.side)).2.2 :=
          (congrArg (·.2.2) h).symm
        obtain ⟨h1, h2, h3, p, hap, hp'⟩ := matchLoop_trades_pack o.side
          (priceValid o.side lim₀) now ((oppMap book o.side).length + 1) o
          (oppMap book o.side) hwf t ht
        refine ⟨h1, h2, h3, ?_⟩
        intro lim hlim _
        rw [hp] at hlim
        injection hlim with hlim
        subst hlim
        constructor
        · intro hside
          rw [hside] at hap
          exact ⟨p, hp', priceValid_buy hap⟩
        · intro hside
          rw [hside] at hap
          exact ⟨p, hp', priceValid_sell hap⟩
      · injection hrun with h
        obtain rfl : ts = ([] : List Trade) := (congrArg (·.2.2) h).symm
        simp at ht

theorem c4_trade_prices_witness :
    (runOrd 4 limC4 bookA).2.2 = [c4t] ∧
    c4t.taker_order_id = limC4.order_id ∧
    c4t.aggressor_side = limC4.side ∧
    c4t.price = some 100 ∧ (100 : ℚ) ≤ 101 := by
  have h := c4_trade_prices 4 limC4 (runOrd 4 limC4 bookA).1 bookA
    (runOrd 4 limC4 bookA).2.1 (runOrd 4 limC4 bookA).2.2
    (by decide) rfl c4t (by decide)
  obtain ⟨h1, h2, _, h4⟩ := h
  obtain ⟨p, hp, hple⟩ := (h4 101 rfl (by decide)).1 rfl
  have hp100 : some p = some (100 : ℚ) := hp.symm
  injection hp100 with hp100
  subst hp100
  exact ⟨by decide, h1, h2, hp, hple⟩

theorem c5_market_residual_status_witness :
    (runOrd 1 (mktOrd 21 OrderSide.BUY 1 1) (OrderBook.init 0 0)).1.status =
      OrderStatus.PARTIALLY_FILLED ∧
    ¬ idInBook 21 (runOrd 1 (mktOrd 21 OrderSide.BUY 1 1) (OrderBook.init 0 0)).2.1 := by
  have h := c5_market_residual_status 1 (mktOrd 21 OrderSide.BUY 1 1)
    (runOrd 1 (mktOrd 21 OrderSide.BUY 1 1) (OrderBook.init 0 0)).1
    (OrderBook.init 0 0)
    (runOrd 1 (mktOrd 21 OrderSide.BUY 1 1) (OrderBook.init 0 0)).2.1
    (runOrd 1 (mktOrd 21 OrderSide.BUY 1 1) (OrderBook.init 0 0)).2.2
    rfl rfl
  exact ⟨h.1 (by decide), h.2.2 (by decide)⟩

theorem c7_ioc_spec_witness :
    (runOrd 4 iocC7 bookA).1.status = OrderStatus.CANCELLED ∧
    (runOrd 4 iocC7 bookA).2.1.orders = bookA.orders ∧
    ¬ idInBook 31 (runOrd 4 iocC7 bookA).2.1 := by
  have h := c7_ioc_spec 4 iocC7 (runOrd 4 iocC7 bookA).1 bookA
    (runOrd 4 iocC7 bookA).2.1 (runOrd 4 iocC7 bookA).2.2 rfl rfl
  exact ⟨h.1 (by decide), h.2.1, h.2.2 (by decide)⟩

end Eng
